import Mathlib

/-!
Verification of the request-validation and SQL-operation gatekeeping pipeline
of the supabase-mcp repository.

The repository ships several near-duplicate gateway servers.  The SQL guard
(`sanitizeSqlQuery`) is embedded from the plain-string variant
(src/unnamed/part_002, lines 127-156), whose uppercase+trim normalization,
substring denylist and prefix allow-list the specification reproduces
verbatim.  The policy checks and the tools/call gatekeeping pipeline are
embedded from src/index-http-secure.ts (loadSecurityConfig,
validateProjectAccess, validateReadOnlyOperation, validateBlockedOperation,
validateSchemaAccess, validateTableAccess and the /mcp route of setupRoutes);
the part_002 boolean-valued variants of the project / read-only / blocked
checks are embedded alongside under a `P2` suffix.

Strings are modelled as Lean `String` for opaque identifiers and as
`List Char` where the code manipulates characters (uppercasing, trimming,
substring and prefix matching).  JavaScript's `toUpperCase`, `trim`,
`includes` and `startsWith` are modelled at the ASCII level by
`Char.toUpper`, whitespace trimming, `includesPat` and `List.isPrefixOf`.
-/

/-- ASCII model of JavaScript `String.prototype.includes`:
`includesPat pat s` is true iff `pat` occurs as a contiguous substring
of `s`. -/
def includesPat (pat : List Char) : List Char → Bool
  | [] => pat.isPrefixOf ([] : List Char)
  | c :: rest => pat.isPrefixOf (c :: rest) || includesPat pat rest

/-- Model of JavaScript `String.prototype.trim`: drop whitespace from both
ends of the character list. -/
def trimChars (l : List Char) : List Char :=
  ((l.dropWhile Char.isWhitespace).reverse.dropWhile Char.isWhitespace).reverse

/-- `query.toUpperCase().trim()` from part_002's `sanitizeSqlQuery`
(line 128): uppercase every character, then trim both ends. -/
def normalizeSql (query : String) : List Char :=
  trimChars (query.toList.map Char.toUpper)

/-- The `dangerousPatterns` array of part_002's `sanitizeSqlQuery`
(lines 131-134), in source order. -/
def dangerousPatterns : List (List Char) :=
  ["DROP TABLE".toList, "TRUNCATE TABLE".toList, "DELETE FROM".toList,
   "UPDATE ".toList, "CREATE TABLE".toList, "ALTER TABLE".toList,
   "GRANT ".toList, "REVOKE ".toList, "DROP DATABASE".toList,
   "DROP SCHEMA".toList]

/-- The `allowedPatterns` array of part_002's `sanitizeSqlQuery`
(line 148), in source order. -/
def allowedPatterns : List (List Char) :=
  ["SELECT ".toList, "INSERT INTO".toList, "WITH ".toList,
   "EXPLAIN ".toList, "DESCRIBE ".toList]

/-- The reasons with which part_002's `sanitizeSqlQuery` throws:
a dangerous pattern found in the normalized query, an INSERT while
read-only, or no allowed leading pattern. -/
inductive SqlRejection where
  | dangerous (pattern : List Char)
  | insertReadOnly
  | notInAllowList
deriving DecidableEq

/-- The error messages of part_002's `sanitizeSqlQuery` (lines 138, 144,
152), one per rejection reason; the dangerous-pattern message interpolates
the offending pattern. -/
def rejectionMessage : SqlRejection → String
  | .dangerous pattern => "Dangerous SQL operation blocked: " ++ String.mk pattern
  | .insertReadOnly => "INSERT operations are blocked in read-only mode"
  | .notInAllowList => "Only SELECT, INSERT, WITH, EXPLAIN, and DESCRIBE operations are allowed"

/-- The literal `INSERT INTO` checked by the read-only rule of part_002's
`sanitizeSqlQuery` (line 143). -/
def insertIntoPattern : List Char := "INSERT INTO".toList

/-- part_002's `sanitizeSqlQuery` (lines 127-156).  The source normalizes
the query once into `upperQuery`; here `normalizeSql query` is written at
each use site, which denotes the same list.  The for-loop that throws on
the first dangerous pattern found is `List.find?` over the array in source
order; the function returns the original query text on success. -/
def sanitizeSqlQuery (readOnly : Bool) (query : String) : Except SqlRejection String :=
  match dangerousPatterns.find? (fun pat => includesPat pat (normalizeSql query)) with
  | some pat => .error (.dangerous pat)
  | none =>
    if readOnly && includesPat insertIntoPattern (normalizeSql query) then
      .error .insertReadOnly
    else if allowedPatterns.any (fun pat => pat.isPrefixOf (normalizeSql query)) then
      .ok query
    else
      .error .notInAllowList

/-- The `SecurityConfig` interface of index-http-secure.ts (lines 13-19).
`loadSecurityConfig` (lines 34-48) fills every field from a comma-split
environment variable, defaulting to the empty list (and `["public"]` for
`allowedSchemas`) when the variable is unset. -/
structure SecurityConfig where
  readOnly : Bool
  allowedProjects : List String
  allowedSchemas : List String
  allowedTables : List String
  blockedOperations : List String
deriving DecidableEq

/-- The denial reasons thrown by the index-http-secure.ts checks. -/
inductive GatekeepError where
  | projectNotAllowed (projectRef : String)
  | readOnlyViolation (name : String)
  | explicitlyBlocked (name : String)
  | schemaNotAllowed (invalid : List String)
  | sqlRejected (r : SqlRejection)
deriving DecidableEq

/-- index-http-secure.ts `validateProjectAccess` (lines 89-94): throws iff
the allow-list is non-empty and does not contain the project reference. -/
def validateProjectAccess (cfg : SecurityConfig) (projectRef : String) :
    Except GatekeepError Unit :=
  if cfg.allowedProjects.length > 0 ∧ projectRef ∉ cfg.allowedProjects then
    .error (.projectNotAllowed projectRef)
  else
    .ok ()

/-- The `writeOperations` array of index-http-secure.ts
`validateReadOnlyOperation` (lines 98-110). -/
def writeOperationsSecure : List String :=
  ["apply_migration", "deploy_edge_function", "create_project",
   "pause_project", "restore_project", "create_branch", "delete_branch",
   "merge_branch", "reset_branch", "rebase_branch", "update_storage_config"]

/-- index-http-secure.ts `validateReadOnlyOperation` (lines 96-116):
in read-only mode, throws iff the operation is in `writeOperationsSecure`. -/
def validateReadOnlyOperation (cfg : SecurityConfig) (operation : String) :
    Except GatekeepError Unit :=
  if cfg.readOnly then
    if operation ∈ writeOperationsSecure then
      .error (.readOnlyViolation operation)
    else
      .ok ()
  else
    .ok ()

/-- index-http-secure.ts `validateBlockedOperation` (lines 118-122):
throws iff the operation is a member of `blockedOperations`. -/
def validateBlockedOperation (cfg : SecurityConfig) (operation : String) :
    Except GatekeepError Unit :=
  if operation ∈ cfg.blockedOperations then
    .error (.explicitlyBlocked operation)
  else
    .ok ()

/-- index-http-secure.ts `validateSchemaAccess` (lines 124-133): with a
non-empty schema allow-list, throws listing every input schema not in the
list; a no-op otherwise. -/
def validateSchemaAccess (cfg : SecurityConfig) (schemas : List String) :
    Except GatekeepError Unit :=
  if cfg.allowedSchemas.length > 0 then
    let invalidSchemas := schemas.filter (fun schema => !(cfg.allowedSchemas.contains schema))
    if invalidSchemas.length > 0 then
      .error (.schemaNotAllowed invalidSchemas)
    else
      .ok ()
  else
    .ok ()

/-- index-http-secure.ts `validateTableAccess` (lines 135-144): symmetric
to `validateSchemaAccess`, against `allowedTables`. -/
def validateTableAccess (cfg : SecurityConfig) (tables : List String) :
    Except GatekeepError Unit :=
  if cfg.allowedTables.length > 0 then
    let invalidTables := tables.filter (fun table => !(cfg.allowedTables.contains table))
    if invalidTables.length > 0 then
      .error (.schemaNotAllowed invalidTables)
    else
      .ok ()
  else
    .ok ()

/-- part_002 `validateProjectAccess` (lines 101-104): `allowedProjects`
is `null` (here `none`) when the environment variable is unset, in which
case every project passes; otherwise membership via `Array.includes`. -/
def validateProjectAccessP2 (allowedProjects : Option (List String))
    (projectRef : String) : Bool :=
  match allowedProjects with
  | none => true
  | some projects => projects.contains projectRef

/-- The `writeOperations` array of part_002 `validateReadOnlyOperation`
(line 119). -/
def writeOperationsP2 : List String :=
  ["apply_migration", "execute_sql_insert", "execute_sql_update", "execute_sql_delete"]

/-- part_002 `validateReadOnlyOperation` (lines 117-121): returns `true`
(operation passes) unless read-only mode is active and the tool name is in
`writeOperationsP2`. -/
def validateReadOnlyOperationP2 (readOnly : Bool) (toolName : String) : Bool :=
  if readOnly then !(writeOperationsP2.contains toolName) else true

/-- part_002 `validateBlockedOperation` (lines 123-125): passes iff the
tool name is not a member of the blocked-operations list. -/
def validateBlockedOperationP2 (blockedOperations : List String)
    (toolName : String) : Bool :=
  !(blockedOperations.contains toolName)

/-- The write-operation set asserted by the specification: the union of the
two variants' `writeOperations` arrays. -/
def claimedWriteOperations : List String :=
  ["apply_migration", "execute_sql_insert", "execute_sql_update",
   "execute_sql_delete", "deploy_edge_function", "create_project",
   "pause_project", "restore_project", "create_branch", "delete_branch",
   "merge_branch", "reset_branch", "rebase_branch", "update_storage_config"]

/-- The schema-check step of the /mcp tools/call route of
index-http-secure.ts (lines 298-300): `validateSchemaAccess` runs only for
`list_tables` invocations that carry a `schemas` argument. -/
def schemaStep (cfg : SecurityConfig) (name : String)
    (schemas : Option (List String)) : Except GatekeepError Unit :=
  if name = "list_tables" then
    match schemas with
    | some ss => validateSchemaAccess cfg ss
    | none => .ok ()
  else
    .ok ()

/-- The SQL-guard step of the /mcp tools/call route of index-http-secure.ts
(lines 302-304): the guard runs only for `execute_sql` invocations that
carry a `query` argument.  The guard itself is passed as a parameter, as
the specification isolates SqlGuard behind an interface. -/
def sqlStep (guard : Bool → String → Except SqlRejection String)
    (cfg : SecurityConfig) (name : String) (query : Option String) :
    Except GatekeepError Unit :=
  if name = "execute_sql" then
    match query with
    | some q =>
      match guard cfg.readOnly q with
      | .ok _ => .ok ()
      | .error r => .error (.sqlRejected r)
    | none => .ok ()
  else
    .ok ()

/-- The gatekeeping sequence of the /mcp route of index-http-secure.ts for
a tools/call invocation (lines 249-306): project access (line 250), then
read-only and blocked-operation checks (lines 294-295), then the schema
check (lines 298-300), then the SQL guard (lines 302-304); the first
thrown error aborts the sequence. -/
def toolsCallGatekeep (guard : Bool → String → Except SqlRejection String)
    (cfg : SecurityConfig) (projectRef name : String)
    (schemas : Option (List String)) (query : Option String) :
    Except GatekeepError Unit :=
  match validateProjectAccess cfg projectRef with
  | .error e => .error e
  | .ok _ =>
    match validateReadOnlyOperation cfg name with
    | .error e => .error e
    | .ok _ =>
      match validateBlockedOperation cfg name with
      | .error e => .error e
      | .ok _ =>
        match schemaStep cfg name schemas with
        | .error e => .error e
        | .ok _ => sqlStep guard cfg name query

/-- The first dangerous pattern (in the order of the source array) that
occurs in a normalized query, mirroring the throwing for-loop of part_002's
`sanitizeSqlQuery` (lines 136-140). -/
def firstDangerous (u : List Char) : Option (List Char) :=
  dangerousPatterns.find? (fun pat => includesPat pat u)

/-- Decidable equality for `Except`, used to evaluate the embedding at
concrete inputs. -/
instance exceptDecEq {e a : Type} [DecidableEq e] [DecidableEq a] :
    DecidableEq (Except e a) := fun x y =>
  match x, y with
  | .ok u, .ok v =>
    if h : u = v then .isTrue (by rw [h]) else .isFalse (by intro hc; cases hc; exact h rfl)
  | .error u, .error v =>
    if h : u = v then .isTrue (by rw [h]) else .isFalse (by intro hc; cases hc; exact h rfl)
  | .ok _, .error _ => .isFalse (by intro hc; cases hc)
  | .error _, .ok _ => .isFalse (by intro hc; cases hc)

/-- `List.find?` returns the head of the list that remains after dropping
the elements failing the predicate: the leftmost hit. -/
theorem find?_eq_head_dropWhile {α : Type} (p : α → Bool) (l : List α) :
    l.find? p = (l.dropWhile (fun a => !(p a))).head? := by
  induction l with
  | nil => rfl
  | cons x xs ih =>
    cases hx : p x with
    | true => simp [List.find?_cons, List.dropWhile_cons, hx]
    | false => simp [List.find?_cons, List.dropWhile_cons, hx, ih]

/-- Uppercasing a whitespace character leaves it unchanged. -/
theorem toUpper_of_whitespace {c : Char} (h : c.isWhitespace = true) :
    c.toUpper = c := by
  simp [Char.isWhitespace] at h
  rcases h with ((h | h) | h) | h <;> subst h <;> decide

/-- Uppercasing an all-whitespace character list leaves it unchanged. -/
theorem map_toUpper_of_all_whitespace {l : List Char}
    (h : l.all Char.isWhitespace = true) : l.map Char.toUpper = l := by
  induction l with
  | nil => rfl
  | cons c cs ih =>
    rw [List.all_cons, Bool.and_eq_true] at h
    simp [toUpper_of_whitespace h.1, ih h.2]

/-- Dropping leading whitespace from an all-whitespace list empties it. -/
theorem dropWhile_of_all_whitespace {l : List Char}
    (h : l.all Char.isWhitespace = true) : l.dropWhile Char.isWhitespace = [] := by
  induction l with
  | nil => rfl
  | cons c cs ih =>
    rw [List.all_cons, Bool.and_eq_true] at h
    simp [List.dropWhile_cons, h.1, ih h.2]

/-- Trimming an all-whitespace list empties it. -/
theorem trimChars_of_all_whitespace {l : List Char}
    (h : l.all Char.isWhitespace = true) : trimChars l = [] := by
  unfold trimChars
  rw [dropWhile_of_all_whitespace h]
  rfl

/-- Normalizing an all-whitespace query yields the empty character list. -/
theorem normalizeSql_of_all_whitespace (q : String)
    (h : q.toList.all Char.isWhitespace = true) : normalizeSql q = [] := by
  unfold normalizeSql
  rw [map_toUpper_of_all_whitespace h]
  exact trimChars_of_all_whitespace h

/-- C2: with empty allow-lists, every project reference passes the project
check, every schema list passes the schema check and every table list
passes the table check, for any read-only flag and blocked-operation list;
likewise part_002's project check passes everything when the allow-list is
absent (`null`). -/
theorem empty_allow_lists_admit_all (ro : Bool) (blocked : List String)
    (ref : String) (schemas tables : List String) :
    validateProjectAccess ⟨ro, [], [], [], blocked⟩ ref = .ok ()
    ∧ validateSchemaAccess ⟨ro, [], [], [], blocked⟩ schemas = .ok ()
    ∧ validateTableAccess ⟨ro, [], [], [], blocked⟩ tables = .ok ()
    ∧ validateProjectAccessP2 none ref = true := by
  refine ⟨?_, ?_, ?_, rfl⟩ <;>
    simp [validateProjectAccess, validateSchemaAccess, validateTableAccess]

/-- C7: with a non-empty project allow-list, the project check passes
exactly the exact (case-sensitive) members of the list; the same holds for
part_002's check when its list is present, which passes everything when the
list is absent.  Concretely, a proper prefix of a listed project and a
case-flipped variant of a listed project are both denied. -/
theorem project_access_exact_member (cfg : SecurityConfig) (ref : String)
    (h : cfg.allowedProjects ≠ []) :
    (validateProjectAccess cfg ref = .ok () ↔ ref ∈ cfg.allowedProjects)
    ∧ (∀ l : List String, validateProjectAccessP2 (some l) ref = true ↔ ref ∈ l)
    ∧ validateProjectAccessP2 none ref = true
    ∧ validateProjectAccess ⟨false, ["abcdef"], [], [], []⟩ "abc"
        = .error (.projectNotAllowed "abc")
    ∧ validateProjectAccessP2 (some ["abc"]) "ABC" = false := by
  refine ⟨?_, ?_, rfl, by decide, by decide⟩
  · by_cases hm : ref ∈ cfg.allowedProjects <;>
      simp [validateProjectAccess, hm, List.length_pos.mpr h]
  · intro l
    simp [validateProjectAccessP2, List.contains]

/-- C7 witness: at the singleton allow-list `["proj-1"]`, the reference
`"proj-1"` passes both variants' checks. -/
theorem project_access_exact_member_witness :
    (validateProjectAccess ⟨false, ["proj-1"], [], [], []⟩ "proj-1" = .ok ()
      ↔ "proj-1" ∈ ["proj-1"])
    ∧ (∀ l : List String, validateProjectAccessP2 (some l) "proj-1" = true ↔ "proj-1" ∈ l)
    ∧ validateProjectAccessP2 none "proj-1" = true
    ∧ validateProjectAccess ⟨false, ["abcdef"], [], [], []⟩ "abc"
        = .error (.projectNotAllowed "abc")
    ∧ validateProjectAccessP2 (some ["abc"]) "ABC" = false :=
  project_access_exact_member ⟨false, ["proj-1"], [], [], []⟩ "proj-1" (by decide)

/-- C3 counterexample: the specification's 14-name write-operation set
matches neither variant.  `create_project` is in the claimed set yet
passes part_002's read-only check, and `execute_sql_insert` is in the
claimed set yet passes index-http-secure's read-only check. -/
theorem readOnly_claimed_set_counterexample :
    ("create_project" ∈ claimedWriteOperations
      ∧ validateReadOnlyOperationP2 true "create_project" = true)
    ∧ ("execute_sql_insert" ∈ claimedWriteOperations
      ∧ validateReadOnlyOperation ⟨true, [], [], [], []⟩ "execute_sql_insert" = .ok ()) := by
  decide

/-- C3 (amended): each variant denies, in read-only mode, exactly its own
write-operation list — part_002 the four `apply_migration`/`execute_sql_*`
names, index-http-secure its eleven management names — and denies nothing
when read-only is off; the specification's 14-name set is exactly the
union of the two variants' lists. -/
theorem readOnly_check_variant_sets (name : String) (ps ss ts bs : List String) :
    (validateReadOnlyOperationP2 true name = false ↔ name ∈ writeOperationsP2)
    ∧ (validateReadOnlyOperation ⟨true, ps, ss, ts, bs⟩ name
        = .error (.readOnlyViolation name) ↔ name ∈ writeOperationsSecure)
    ∧ validateReadOnlyOperationP2 false name = true
    ∧ validateReadOnlyOperation ⟨false, ps, ss, ts, bs⟩ name = .ok ()
    ∧ (name ∈ claimedWriteOperations
        ↔ name ∈ writeOperationsP2 ∨ name ∈ writeOperationsSecure) := by
  refine ⟨?_, ?_, rfl, rfl, ?_⟩
  · simp [validateReadOnlyOperationP2, List.contains]
  · by_cases hm : name ∈ writeOperationsSecure <;> simp [validateReadOnlyOperation, hm]
  · simp [claimedWriteOperations, writeOperationsP2, writeOperationsSecure]
    tauto

/-- C8: for every configuration — any read-only flag — and every
operation name — write or not — the blocked-operation check of
index-http-secure denies exactly the members of `blockedOperations` and
passes every other name; its verdict is invariant under flipping the
read-only flag; concretely, the write operation `apply_migration`, when
blocked, is denied with read-only on and with read-only off alike, and the
non-write `list_tables`, when blocked, is denied too; part_002's boolean
check fails exactly on members of its blocked list. -/
theorem blocked_check_exact (cfg : SecurityConfig) (name : String)
    (blocked : List String) :
    (validateBlockedOperation cfg name = .error (.explicitlyBlocked name)
      ↔ name ∈ cfg.blockedOperations)
    ∧ (name ∉ cfg.blockedOperations → validateBlockedOperation cfg name = .ok ())
    ∧ (∀ ro2 : Bool,
        validateBlockedOperation
          ⟨ro2, cfg.allowedProjects, cfg.allowedSchemas, cfg.allowedTables,
            cfg.blockedOperations⟩ name
          = validateBlockedOperation cfg name)
    ∧ validateBlockedOperation ⟨true, [], [], [], ["apply_migration"]⟩ "apply_migration"
        = .error (.explicitlyBlocked "apply_migration")
    ∧ validateBlockedOperation ⟨false, [], [], [], ["apply_migration"]⟩ "apply_migration"
        = .error (.explicitlyBlocked "apply_migration")
    ∧ validateBlockedOperation ⟨false, [], [], [], ["list_tables"]⟩ "list_tables"
        = .error (.explicitlyBlocked "list_tables")
    ∧ (validateBlockedOperationP2 blocked name = false ↔ name ∈ blocked) := by
  refine ⟨?_, ?_, ?_, by decide, by decide, by decide, ?_⟩
  · by_cases hm : name ∈ cfg.blockedOperations <;> simp [validateBlockedOperation, hm]
  · intro hm
    simp [validateBlockedOperation, hm]
  · intro ro2
    rfl
  · simp [validateBlockedOperationP2, List.contains]

/-- C6: in the /mcp tools/call gatekeeping sequence of index-http-secure,
a project-access denial is the pipeline's outcome whatever the operation,
schema or query, and the outcome is then independent of the SQL guard
(the guard is never consulted); when the project check passes, a read-only
denial preempts the blocked check, a blocked denial preempts the schema
check, a schema denial preempts the SQL guard, and only when all prior
checks pass is the outcome that of the SQL-guard step. -/
theorem pipeline_order_shortcircuit
    (guard guard2 : Bool → String → Except SqlRejection String)
    (cfg : SecurityConfig) (ref name : String)
    (schemas : Option (List String)) (query : Option String)
    (hproj : validateProjectAccess cfg ref = .error (.projectNotAllowed ref)) :
    toolsCallGatekeep guard cfg ref name schemas query = .error (.projectNotAllowed ref)
    ∧ toolsCallGatekeep guard cfg ref name schemas query
        = toolsCallGatekeep guard2 cfg ref name schemas query
    ∧ (∀ (c : SecurityConfig) (r n : String) (ss : Option (List String)) (qq : Option String),
        validateProjectAccess c r = .ok () →
        validateReadOnlyOperation c n = .error (.readOnlyViolation n) →
        toolsCallGatekeep guard c r n ss qq = .error (.readOnlyViolation n))
    ∧ (∀ (c : SecurityConfig) (r n : String) (ss : Option (List String)) (qq : Option String),
        validateProjectAccess c r = .ok () →
        validateReadOnlyOperation c n = .ok () →
        validateBlockedOperation c n = .error (.explicitlyBlocked n) →
        toolsCallGatekeep guard c r n ss qq = .error (.explicitlyBlocked n))
    ∧ (∀ (c : SecurityConfig) (r n : String) (ss : Option (List String)) (qq : Option String)
        (e : GatekeepError),
        validateProjectAccess c r = .ok () →
        validateReadOnlyOperation c n = .ok () →
        validateBlockedOperation c n = .ok () →
        schemaStep c n ss = .error e →
        toolsCallGatekeep guard c r n ss qq = .error e)
    ∧ (∀ (c : SecurityConfig) (r n : String) (ss : Option (List String)) (qq : Option String),
        validateProjectAccess c r = .ok () →
        validateReadOnlyOperation c n = .ok () →
        validateBlockedOperation c n = .ok () →
        schemaStep c n ss = .ok () →
        toolsCallGatekeep guard c r n ss qq = sqlStep guard c n qq) := by
  refine ⟨?_, ?_, ?_, ?_, ?_, ?_⟩
  · simp [toolsCallGatekeep, hproj]
  · simp [toolsCallGatekeep, hproj]
  · intro c r n ss qq h1 h2
    simp [toolsCallGatekeep, h1, h2]
  · intro c r n ss qq h1 h2 h3
    simp [toolsCallGatekeep, h1, h2, h3]
  · intro c r n ss qq e h1 h2 h3 h4
    simp [toolsCallGatekeep, h1, h2, h3, h4]
  · intro c r n ss qq h1 h2 h3 h4
    simp [toolsCallGatekeep, h1, h2, h3, h4]

/-- C6 witness: a request for project `"other"` under an allow-list
holding only `"allowed"` is denied at the project stage, with the SQL
guard never consulted — the real guard and a guard accepting everything
give the same outcome on a query the real guard would reject. -/
theorem pipeline_order_shortcircuit_witness :
    toolsCallGatekeep sanitizeSqlQuery ⟨true, ["allowed"], ["public"], [], ["x"]⟩
        "other" "execute_sql" none (some "DROP TABLE users")
      = .error (.projectNotAllowed "other")
    ∧ toolsCallGatekeep sanitizeSqlQuery ⟨true, ["allowed"], ["public"], [], ["x"]⟩
        "other" "execute_sql" none (some "DROP TABLE users")
      = toolsCallGatekeep (fun _ q => Except.ok q) ⟨true, ["allowed"], ["public"], [], ["x"]⟩
        "other" "execute_sql" none (some "DROP TABLE users")
    ∧ (∀ (c : SecurityConfig) (r n : String) (ss : Option (List String)) (qq : Option String),
        validateProjectAccess c r = .ok () →
        validateReadOnlyOperation c n = .error (.readOnlyViolation n) →
        toolsCallGatekeep sanitizeSqlQuery c r n ss qq = .error (.readOnlyViolation n))
    ∧ (∀ (c : SecurityConfig) (r n : String) (ss : Option (List String)) (qq : Option String),
        validateProjectAccess c r = .ok () →
        validateReadOnlyOperation c n = .ok () →
        validateBlockedOperation c n = .error (.explicitlyBlocked n) →
        toolsCallGatekeep sanitizeSqlQuery c r n ss qq = .error (.explicitlyBlocked n))
    ∧ (∀ (c : SecurityConfig) (r n : String) (ss : Option (List String)) (qq : Option String)
        (e : GatekeepError),
        validateProjectAccess c r = .ok () →
        validateReadOnlyOperation c n = .ok () →
        validateBlockedOperation c n = .ok () →
        schemaStep c n ss = .error e →
        toolsCallGatekeep sanitizeSqlQuery c r n ss qq = .error e)
    ∧ (∀ (c : SecurityConfig) (r n : String) (ss : Option (List String)) (qq : Option String),
        validateProjectAccess c r = .ok () →
        validateReadOnlyOperation c n = .ok () →
        validateBlockedOperation c n = .ok () →
        schemaStep c n ss = .ok () →
        toolsCallGatekeep sanitizeSqlQuery c r n ss qq = sqlStep sanitizeSqlQuery c n qq) :=
  pipeline_order_shortcircuit sanitizeSqlQuery (fun _ q => Except.ok q)
    ⟨true, ["allowed"], ["public"], [], ["x"]⟩ "other" "execute_sql" none
    (some "DROP TABLE users") (by decide)

/-- C1: whenever the normalized (uppercased, trimmed) query contains any
of the ten denylist patterns, the SQL guard rejects it — in read-only and
in read-write mode alike — and the reported pattern is the first matching
one in the order of the source array: all patterns listed before it fail
to match.  Moreover the trailing space of the pattern `UPDATE ` keeps the
bare word `UPDATED` from matching. -/
theorem sql_guard_denylist (ro : Bool) (q : String) (pat : List Char)
    (hmem : pat ∈ dangerousPatterns)
    (hinf : includesPat pat (normalizeSql q) = true) :
    sanitizeSqlQuery ro q
        = .error (.dangerous ((firstDangerous (normalizeSql q)).getD []))
    ∧ includesPat ((firstDangerous (normalizeSql q)).getD []) (normalizeSql q) = true
    ∧ dangerousPatterns
        = dangerousPatterns.takeWhile (fun p => !(includesPat p (normalizeSql q)))
          ++ (firstDangerous (normalizeSql q)).getD []
            :: (dangerousPatterns.dropWhile (fun p => !(includesPat p (normalizeSql q)))).tail
    ∧ (∀ p1 ∈ dangerousPatterns.takeWhile (fun p => !(includesPat p (normalizeSql q))),
        includesPat p1 (normalizeSql q) = false)
    ∧ includesPat "UPDATE ".toList (normalizeSql "SELECT UPDATED FROM t") = false := by
  obtain ⟨p0, hp0⟩ : ∃ p0, firstDangerous (normalizeSql q) = some p0 := by
    cases hf : firstDangerous (normalizeSql q) with
    | some p0 => exact ⟨p0, rfl⟩
    | none =>
      unfold firstDangerous at hf
      rw [List.find?_eq_none] at hf
      exact absurd hinf (hf pat hmem)
  have hfind : dangerousPatterns.find? (fun p => includesPat p (normalizeSql q)) = some p0 := hp0
  have hhead : (dangerousPatterns.dropWhile
      (fun p => !(includesPat p (normalizeSql q)))).head? = some p0 := by
    rw [← find?_eq_head_dropWhile]
    exact hfind
  have hdrop : dangerousPatterns.dropWhile (fun p => !(includesPat p (normalizeSql q)))
      = p0 :: (dangerousPatterns.dropWhile (fun p => !(includesPat p (normalizeSql q)))).tail := by
    cases hd : dangerousPatterns.dropWhile (fun p => !(includesPat p (normalizeSql q))) with
    | nil => rw [hd] at hhead; cases hhead
    | cons b t =>
      rw [hd] at hhead
      simp at hhead
      rw [hhead]
      rfl
  refine ⟨?_, ?_, ?_, ?_, by decide⟩
  · simp [sanitizeSqlQuery, hfind, hp0]
  · have hsat := List.find?_some hfind
    simp [hp0]
    exact hsat
  · rw [hp0]
    simp only [Option.getD_some]
    rw [← hdrop]
    exact (List.takeWhile_append_dropWhile
      (fun p => !(includesPat p (normalizeSql q))) dangerousPatterns).symm
  · intro p1 hp1
    have h2 := List.mem_takeWhile_imp hp1
    simp at h2
    exact h2

/-- C1 witness: `DROP TABLE users` is rejected in read-only mode with the
first matching pattern `DROP TABLE` reported. -/
theorem sql_guard_denylist_witness :
    sanitizeSqlQuery true "DROP TABLE users"
        = .error (.dangerous ((firstDangerous (normalizeSql "DROP TABLE users")).getD []))
    ∧ includesPat ((firstDangerous (normalizeSql "DROP TABLE users")).getD [])
        (normalizeSql "DROP TABLE users") = true
    ∧ dangerousPatterns
        = dangerousPatterns.takeWhile
            (fun p => !(includesPat p (normalizeSql "DROP TABLE users")))
          ++ (firstDangerous (normalizeSql "DROP TABLE users")).getD []
            :: (dangerousPatterns.dropWhile
                (fun p => !(includesPat p (normalizeSql "DROP TABLE users")))).tail
    ∧ (∀ p1 ∈ dangerousPatterns.takeWhile
          (fun p => !(includesPat p (normalizeSql "DROP TABLE users"))),
        includesPat p1 (normalizeSql "DROP TABLE users") = false)
    ∧ includesPat "UPDATE ".toList (normalizeSql "SELECT UPDATED FROM t") = false :=
  sql_guard_denylist true "DROP TABLE users" "DROP TABLE".toList (by decide) (by decide)

/-- C4: when neither the denylist nor the read-only insert rule fires, the
guard accepts the query exactly when its normalized, trimmed text starts
with one of `SELECT `, `INSERT INTO`, `WITH `, `EXPLAIN `, `DESCRIBE `,
and rejects with the not-in-allow-list reason when no prefix matches. -/
theorem sql_guard_allow_list (ro : Bool) (q : String)
    (hD : dangerousPatterns.find? (fun pat => includesPat pat (normalizeSql q)) = none)
    (hI : (ro && includesPat insertIntoPattern (normalizeSql q)) = false) :
    (sanitizeSqlQuery ro q = .ok q
      ↔ allowedPatterns.any (fun pat => pat.isPrefixOf (normalizeSql q)) = true)
    ∧ (allowedPatterns.any (fun pat => pat.isPrefixOf (normalizeSql q)) = false
        → sanitizeSqlQuery ro q = .error .notInAllowList) := by
  cases ro with
  | false =>
    by_cases hA : allowedPatterns.any (fun pat => pat.isPrefixOf (normalizeSql q)) = true
    · refine ⟨by simp [sanitizeSqlQuery, hD, hA], fun hA2 => ?_⟩
      rw [hA] at hA2
      cases hA2
    · have hA2 : allowedPatterns.any (fun pat => pat.isPrefixOf (normalizeSql q)) = false := by
        revert hA
        cases allowedPatterns.any (fun pat => pat.isPrefixOf (normalizeSql q)) <;> simp
      exact ⟨by simp [sanitizeSqlQuery, hD, hA2],
        fun _ => by simp [sanitizeSqlQuery, hD, hA2]⟩
  | true =>
    have hX : includesPat insertIntoPattern (normalizeSql q) = false := by
      simpa using hI
    by_cases hA : allowedPatterns.any (fun pat => pat.isPrefixOf (normalizeSql q)) = true
    · refine ⟨by simp [sanitizeSqlQuery, hD, hX, hA], fun hA2 => ?_⟩
      rw [hA] at hA2
      cases hA2
    · have hA2 : allowedPatterns.any (fun pat => pat.isPrefixOf (normalizeSql q)) = false := by
        revert hA
        cases allowedPatterns.any (fun pat => pat.isPrefixOf (normalizeSql q)) <;> simp
      exact ⟨by simp [sanitizeSqlQuery, hD, hX, hA2],
        fun _ => by simp [sanitizeSqlQuery, hD, hX, hA2]⟩

/-- C4 witness: `SELECT 1 FROM t` passes the denylist and insert rule and
is accepted by the prefix allow-list. -/
theorem sql_guard_allow_list_witness :
    (sanitizeSqlQuery false "SELECT 1 FROM t" = .ok "SELECT 1 FROM t"
      ↔ allowedPatterns.any
          (fun pat => pat.isPrefixOf (normalizeSql "SELECT 1 FROM t")) = true)
    ∧ (allowedPatterns.any
          (fun pat => pat.isPrefixOf (normalizeSql "SELECT 1 FROM t")) = false
        → sanitizeSqlQuery false "SELECT 1 FROM t" = .error .notInAllowList) :=
  sql_guard_allow_list false "SELECT 1 FROM t" (by decide) (by decide)

/-- C5: a query whose normalized text contains `INSERT INTO` and no
denylist pattern is rejected with the insert-blocked-in-read-only reason
when read-only is on; with read-only off the insert rule never rejects any
query; whenever the denylist matches, its rejection is the outcome (the
insert rule is only evaluated after a clean denylist pass); and
`INSERT INTO users VALUES (1)` is accepted read-write but rejected
read-only. -/
theorem sql_guard_insert_readonly (q : String)
    (hIns : includesPat insertIntoPattern (normalizeSql q) = true)
    (hD : dangerousPatterns.find? (fun pat => includesPat pat (normalizeSql q)) = none) :
    sanitizeSqlQuery true q = .error .insertReadOnly
    ∧ (∀ q2 : String, sanitizeSqlQuery false q2 ≠ .error .insertReadOnly)
    ∧ (∀ (q2 : String) (pat : List Char) (ro : Bool),
        dangerousPatterns.find? (fun p => includesPat p (normalizeSql q2)) = some pat →
        sanitizeSqlQuery ro q2 = .error (.dangerous pat))
    ∧ sanitizeSqlQuery false "INSERT INTO users VALUES (1)"
        = .ok "INSERT INTO users VALUES (1)"
    ∧ sanitizeSqlQuery true "INSERT INTO users VALUES (1)" = .error .insertReadOnly := by
  refine ⟨?_, ?_, ?_, by decide, by decide⟩
  · simp [sanitizeSqlQuery, hD, hIns]
  · intro q2
    cases hf : dangerousPatterns.find? (fun pat => includesPat pat (normalizeSql q2)) with
    | some pat => simp [sanitizeSqlQuery, hf]
    | none =>
      by_cases hA : allowedPatterns.any (fun pat => pat.isPrefixOf (normalizeSql q2)) = true
      · simp [sanitizeSqlQuery, hf, hA]
      · have hA2 : allowedPatterns.any (fun pat => pat.isPrefixOf (normalizeSql q2)) = false := by
          revert hA
          cases allowedPatterns.any (fun pat => pat.isPrefixOf (normalizeSql q2)) <;> simp
        simp [sanitizeSqlQuery, hf, hA2]
  · intro q2 pat ro hf
    simp [sanitizeSqlQuery, hf]

/-- C5 witness: `INSERT INTO logs VALUES (2)` contains `INSERT INTO`,
matches no denylist pattern, and is rejected exactly in read-only mode. -/
theorem sql_guard_insert_readonly_witness :
    sanitizeSqlQuery true "INSERT INTO logs VALUES (2)" = .error .insertReadOnly
    ∧ (∀ q2 : String, sanitizeSqlQuery false q2 ≠ .error .insertReadOnly)
    ∧ (∀ (q2 : String) (pat : List Char) (ro : Bool),
        dangerousPatterns.find? (fun p => includesPat p (normalizeSql q2)) = some pat →
        sanitizeSqlQuery ro q2 = .error (.dangerous pat))
    ∧ sanitizeSqlQuery false "INSERT INTO users VALUES (1)"
        = .ok "INSERT INTO users VALUES (1)"
    ∧ sanitizeSqlQuery true "INSERT INTO users VALUES (1)" = .error .insertReadOnly :=
  sql_guard_insert_readonly "INSERT INTO logs VALUES (2)" (by decide) (by decide)

/-- C9: whatever the guard accepts it returns verbatim: an accepted query
is the original, non-normalized input text, unchanged. -/
theorem sql_guard_identity_on_accept (ro : Bool) (q s : String)
    (h : sanitizeSqlQuery ro q = .ok s) : s = q := by
  unfold sanitizeSqlQuery at h
  split at h
  · simp at h
  · split at h
    · simp at h
    · split at h
      · injection h with h2
        exact h2.symm
      · simp at h

/-- C9 witness: the accepted query `SELECT 2 FROM u` comes back as
exactly the string that went in. -/
theorem sql_guard_identity_on_accept_witness :
    "SELECT 2 FROM u" = "SELECT 2 FROM u" :=
  sql_guard_identity_on_accept false "SELECT 2 FROM u" "SELECT 2 FROM u" (by decide)

/-- C10: the empty query and every all-whitespace query normalize to the
empty text, match no allow-list prefix, and are rejected with the
not-in-allow-list reason under every read-only setting. -/
theorem sql_guard_rejects_blank (ro : Bool) (q : String)
    (h : q.toList.all Char.isWhitespace = true) :
    sanitizeSqlQuery ro q = .error .notInAllowList := by
  have hn := normalizeSql_of_all_whitespace q h
  have hf : dangerousPatterns.find? (fun pat => includesPat pat ([] : List Char)) = none := by
    decide
  have hi : includesPat insertIntoPattern ([] : List Char) = false := by decide
  have ha : allowedPatterns.any (fun pat => pat.isPrefixOf ([] : List Char)) = false := by
    decide
  cases ro with
  | false => simp [sanitizeSqlQuery, hn, hf, ha]
  | true => simp [sanitizeSqlQuery, hn, hf, hi, ha]

/-- C10 witness: a space-only query and the empty query are both rejected
with the not-in-allow-list reason, in read-only and read-write mode. -/
theorem sql_guard_rejects_blank_witness :
    sanitizeSqlQuery true " " = .error .notInAllowList
    ∧ sanitizeSqlQuery false "" = .error .notInAllowList :=
  ⟨sql_guard_rejects_blank true " " (by decide),
   sql_guard_rejects_blank false "" (by decide)⟩
